import Mathlib

/-!
# Lido-on-TVM core: VaultHub registry and StTON share ledger

A shallow embedding of the two core actors of the `GPStakes/lido-TVM`
repository: the `VaultHub` vault-collateral registry and the `StTON`
rebasing share ledger.  The Tact contract sources (`contracts/VaultHub.tact`,
`contracts/StTON.tact`) are not part of the source tree here; the actors are
modelled from the specification (data model §3, component design §4, replay
guard §4.3) and pinned to the concrete behaviour the repository's test
suites demand (`tests/economics.test.ts`, `tests/stton.test.ts` a.k.a.
`src/unnamed/part_001`, `tests/cross-contract.test.ts`,
`tests/e2e-flow.test.ts`): exit codes 200/206/210/211/213 for the hub and
700/702 for the ledger, fee flooring, the 2-day oracle freshness window,
and the first-failing-check order Replay → Unauthorized → Paused →
StateValidation → Economic.

Addresses and message identifiers are modelled as `Nat`; TON amounts and
share amounts as `Nat` (the tests use nonnegative nano-TON values);
oracle-reported `totalValue` and `inOutDelta` as `Int` per the data model.
Each actor is a state value plus a message-step function returning the new
state and an optional typed error; a failing step returns the state
unchanged (a Tact `throw` aborts the whole transaction).
-/

namespace LidoTVM

/-- Association-map lookup with default 0, used for share balances and
allowances (a Tact `map` returns null for absent keys, read as 0). -/
def alookup {α : Type} [DecidableEq α] (m : List (α × Nat)) (k : α) : Nat :=
  match m with
  | [] => 0
  | p :: rest => if p.1 = k then p.2 else alookup rest k

/-- Association-map update: overwrite the first binding of `k`, or append a
fresh binding. -/
def aset {α : Type} [DecidableEq α] (m : List (α × Nat)) (k : α) (v : Nat) :
    List (α × Nat) :=
  match m with
  | [] => [(k, v)]
  | p :: rest => if p.1 = k then (k, v) :: rest else p :: aset rest k v

/-- Sum of all values stored in an association map. -/
def sumVals {α : Type} (m : List (α × Nat)) : Nat :=
  (m.map Prod.snd).sum


/-! ## StTON — the rebasing share ledger -/

/-- State of the `StTON` contract: the trusted `vaultHub` identity fixed at
init, the global share supply and pooled-value scalar, per-holder share
balances, per-(owner, spender) allowances, and the replay guard's set of
processed query ids. -/
structure StTON where
  vaultHub : Nat
  totalShares : Nat
  totalPooledTON : Nat
  shares : List (Nat × Nat)
  allowances : List ((Nat × Nat) × Nat)
  processed : List Nat
deriving DecidableEq

/-- Freshly deployed ledger bound to a given hub identity. -/
def StTON.init (hub : Nat) : StTON :=
  { vaultHub := hub, totalShares := 0, totalPooledTON := 0,
    shares := [], allowances := [], processed := [] }

/-- Error classification of the share ledger.  The test suite pins the
surfaced exit codes: unauthorized mint and insufficient-allowance
TransferFrom both abort with exit code 700, insufficient balance with 702;
no test pins the ledger's replay code. -/
inductive StErr where
  | unauthorized
  | insufficientBalance
  | insufficientAllowance
  | replay
deriving DecidableEq

/-- Exit code surfaced to the caller's transport, as pinned by the tests
(`none` where the repository's tests pin no code). -/
def StErr.exitCode : StErr → Option Nat
  | .unauthorized => some 700
  | .insufficientBalance => some 702
  | .insufficientAllowance => some 700
  | .replay => none

/-- Mutating messages of the ledger; every one carries a replay-guard
query id (first field). -/
inductive StMsg where
  | mint (id recipient shareAmount : Nat)
  | burn (id account shareAmount : Nat)
  | rebase (id newTotalPooledTON : Nat)
  | transferShares (id toAddr shareAmount : Nat)
  | approve (id spender shareAmount : Nat)
  | transferFrom (id owner toAddr shareAmount : Nat)
deriving DecidableEq

/-- The replay-guard identifier carried by a ledger message. -/
def StMsg.msgId : StMsg → Nat
  | .mint id _ _ => id
  | .burn id _ _ => id
  | .rebase id _ => id
  | .transferShares id _ _ => id
  | .approve id _ _ => id
  | .transferFrom id _ _ _ => id

/-- One atomic message transition of the ledger: validation and effect as a
single indivisible step; any failure returns the state unchanged with a
typed error.  Check order: replay first, then sender identity, then
economic checks; the query id is recorded only together with a successful
effect. -/
def StTON.step (st : StTON) (sender : Nat) (m : StMsg) :
    StTON × Option StErr :=
  if st.processed.contains m.msgId then (st, some .replay) else
  match m with
  | .mint id recipient shareAmount =>
    if sender ≠ st.vaultHub then (st, some .unauthorized)
    else
      ({ st with
          shares := aset st.shares recipient
            (alookup st.shares recipient + shareAmount),
          totalShares := st.totalShares + shareAmount,
          processed := id :: st.processed }, none)
  | .burn id account shareAmount =>
    if sender ≠ st.vaultHub then (st, some .unauthorized)
    else if alookup st.shares account < shareAmount then
      (st, some .insufficientBalance)
    else
      ({ st with
          shares := aset st.shares account
            (alookup st.shares account - shareAmount),
          totalShares := st.totalShares - shareAmount,
          processed := id :: st.processed }, none)
  | .rebase id newTotalPooledTON =>
    if sender ≠ st.vaultHub then (st, some .unauthorized)
    else
      ({ st with
          totalPooledTON := newTotalPooledTON,
          processed := id :: st.processed }, none)
  | .transferShares id toAddr shareAmount =>
    if alookup st.shares sender < shareAmount then
      (st, some .insufficientBalance)
    else
      let m1 := aset st.shares sender (alookup st.shares sender - shareAmount)
      ({ st with
          shares := aset m1 toAddr (alookup m1 toAddr + shareAmount),
          processed := id :: st.processed }, none)
  | .approve id spender shareAmount =>
    ({ st with
        allowances := aset st.allowances (sender, spender) shareAmount,
        processed := id :: st.processed }, none)
  | .transferFrom id owner toAddr shareAmount =>
    if alookup st.allowances (owner, sender) < shareAmount then
      (st, some .insufficientAllowance)
    else if alookup st.shares owner < shareAmount then
      (st, some .insufficientBalance)
    else
      let m1 := aset st.shares owner (alookup st.shares owner - shareAmount)
      ({ st with
          shares := aset m1 toAddr (alookup m1 toAddr + shareAmount),
          allowances := aset st.allowances (owner, sender)
            (alookup st.allowances (owner, sender) - shareAmount),
          processed := id :: st.processed }, none)

/-- Run a list of (sender, message) pairs through the ledger, keeping each
step's post-state (failed steps leave the state unchanged). -/
def StTON.run (st : StTON) : List (Nat × StMsg) → StTON
  | [] => st
  | (sender, m) :: rest => ((st.step sender m).1).run rest

/-- `getSharesOf` query. -/
def StTON.getSharesOf (st : StTON) (h : Nat) : Nat :=
  alookup st.shares h

/-- `getAllowance` query. -/
def StTON.getAllowance (st : StTON) (owner spender : Nat) : Nat :=
  alookup st.allowances (owner, spender)

/-- `getBalanceOf` query: shares scaled by the pooled-value ratio, the
identity ratio when `totalShares == 0` (data model §3). -/
def StTON.getBalanceOf (st : StTON) (h : Nat) : Nat :=
  if st.totalShares = 0 then alookup st.shares h
  else alookup st.shares h * st.totalPooledTON / st.totalShares

/-- `getSharesByPooledTon` query: `floor(x*totalShares/totalPooledTON)`,
identity when `totalPooledTON == 0` (§4.2 queries). -/
def StTON.getSharesByPooledTon (st : StTON) (x : Nat) : Nat :=
  if st.totalPooledTON = 0 then x
  else x * st.totalShares / st.totalPooledTON

/-- `getPooledTonByShares` query: `floor(x*totalPooledTON/totalShares)`,
identity when `totalShares == 0` (same zero-guard as `balanceOf`, §3). -/
def StTON.getPooledTonByShares (st : StTON) (x : Nat) : Nat :=
  if st.totalShares = 0 then x
  else x * st.totalPooledTON / st.totalShares


/-! ## VaultHub — the vault collateral registry -/

/-- Per-vault collateral record (data model §3). -/
structure VaultRecord where
  connected : Bool
  shareLimit : Nat
  reserveRatioBP : Nat
  infraFeeBP : Nat
  liquidityFeeBP : Nat
  totalValue : Int
  inOutDelta : Int
  liabilityShares : Nat
  accumulatedFee : Nat
  reportTimestamp : Nat
deriving DecidableEq

/-- Registry state: trusted admin and oracle identities, pause flag,
per-vault records keyed by vault address, the global mint counter, and the
replay guard's processed query ids.  (The factory identity and the ledger
address the hub emits to play no role in the claims and are omitted.) -/
structure VaultHub where
  admin : Nat
  oracle : Nat
  paused : Bool
  vaults : List (Nat × VaultRecord)
  totalSharesMinted : Nat
  processed : List Nat
deriving DecidableEq

/-- Freshly deployed registry. -/
def VaultHub.init (admin oracle : Nat) : VaultHub :=
  { admin := admin, oracle := oracle, paused := false,
    vaults := [], totalSharesMinted := 0, processed := [] }

/-- Record lookup in the registry's vault map. -/
def vlookup (m : List (Nat × VaultRecord)) (k : Nat) : Option VaultRecord :=
  match m with
  | [] => none
  | p :: rest => if p.1 = k then some p.2 else vlookup rest k

/-- Record update: overwrite the first binding of `k`, or append. -/
def vset (m : List (Nat × VaultRecord)) (k : Nat) (r : VaultRecord) :
    List (Nat × VaultRecord) :=
  match m with
  | [] => [(k, r)]
  | p :: rest => if p.1 = k then (k, r) :: rest else p :: vset rest k r

/-- Sum of `liabilityShares` over all retained vault records. -/
def sumLiab (m : List (Nat × VaultRecord)) : Nat :=
  (m.map (fun p => p.2.liabilityShares)).sum


/-- Error classification of the registry; exit codes pinned by
`tests/economics.test.ts` (`none` where the repository's tests pin no
code). -/
inductive HubErr where
  | unauthorized
  | paused
  | alreadyConnected
  | unknownVault
  | oracleStale
  | maxLiability
  | insufficientShares
  | replay
deriving DecidableEq

/-- Exit code surfaced to the caller's transport. -/
def HubErr.exitCode : HubErr → Option Nat
  | .unauthorized => some 200
  | .paused => some 206
  | .oracleStale => some 210
  | .maxLiability => some 211
  | .insufficientShares => some 213
  | _ => none

/-- Mutating messages of the registry (§6).  `pause`/`resume` are plain
text receivers in the tests and carry no query id. -/
inductive HubMsg where
  | connectVault
      (id vault shareLimit reserveRatioBP infraFeeBP liquidityFeeBP : Nat)
  | disconnectVault (id vault : Nat)
  | updateConnection (id vault shareLimit reserveRatioBP infraFeeBP : Nat)
  | applyVaultReport (id vault : Nat) (totalValue inOutDelta : Int)
  | mintShares (id vault amount recipient : Nat)
  | burnShares (id vault amount : Nat)
  | pause
  | resume
deriving DecidableEq

/-- The replay-guard identifier of a registry message, when it carries
one. -/
def HubMsg.msgId : HubMsg → Option Nat
  | .connectVault id _ _ _ _ _ => some id
  | .disconnectVault id _ => some id
  | .updateConnection id _ _ _ _ => some id
  | .applyVaultReport id _ _ _ => some id
  | .mintShares id _ _ _ => some id
  | .burnShares id _ _ => some id
  | .pause => none
  | .resume => none

/-- Oracle freshness window for minting: 2 days in seconds (§4.1). -/
def FRESHNESS : Nat := 2 * 24 * 60 * 60

/-- One atomic message transition of the registry.  Check order per §4.1
and the tests: replay, then sender identity, then pause, then state
validation, then the economic checks; a failure returns the state
unchanged; the query id is recorded only together with a successful
effect.  `now` is the block timestamp the transition executes at.  (The
one-way messages the hub emits to the ledger are not modelled; no claim
concerns their content.) -/
def VaultHub.step (st : VaultHub) (sender now : Nat) (m : HubMsg) :
    VaultHub × Option HubErr :=
  match m with
  | .connectVault id vault shareLimit reserveRatioBP infraFeeBP
      liquidityFeeBP =>
    if st.processed.contains id then (st, some .replay)
    else if sender ≠ st.admin then (st, some .unauthorized)
    else if st.paused then (st, some .paused)
    else
      match vlookup st.vaults vault with
      | some v =>
        if v.connected then (st, some .alreadyConnected)
        else
          ({ st with
              vaults := vset st.vaults vault
                { connected := true,
                  shareLimit := shareLimit,
                  reserveRatioBP := reserveRatioBP,
                  infraFeeBP := infraFeeBP,
                  liquidityFeeBP := liquidityFeeBP,
                  totalValue := 0, inOutDelta := 0,
                  liabilityShares := 0, accumulatedFee := 0,
                  reportTimestamp := 0 },
              processed := id :: st.processed }, none)
      | none =>
        ({ st with
            vaults := vset st.vaults vault
              { connected := true,
                shareLimit := shareLimit,
                reserveRatioBP := reserveRatioBP,
                infraFeeBP := infraFeeBP,
                liquidityFeeBP := liquidityFeeBP,
                totalValue := 0, inOutDelta := 0,
                liabilityShares := 0, accumulatedFee := 0,
                reportTimestamp := 0 },
            processed := id :: st.processed }, none)
  | .disconnectVault id vault =>
    if st.processed.contains id then (st, some .replay)
    else if sender ≠ st.admin then (st, some .unauthorized)
    else
      match vlookup st.vaults vault with
      | some v =>
        if v.connected then
          ({ st with
              vaults := vset st.vaults vault { v with connected := false },
              processed := id :: st.processed }, none)
        else (st, some .unknownVault)
      | none => (st, some .unknownVault)
  | .updateConnection id vault shareLimit reserveRatioBP infraFeeBP =>
    if st.processed.contains id then (st, some .replay)
    else if sender ≠ st.admin then (st, some .unauthorized)
    else
      match vlookup st.vaults vault with
      | some v =>
        if v.connected then
          ({ st with
              vaults := vset st.vaults vault
                { v with
                  shareLimit := shareLimit,
                  reserveRatioBP := reserveRatioBP,
                  infraFeeBP := infraFeeBP },
              processed := id :: st.processed }, none)
        else (st, some .unknownVault)
      | none => (st, some .unknownVault)
  | .applyVaultReport id vault totalValue inOutDelta =>
    if st.processed.contains id then (st, some .replay)
    else if sender ≠ st.oracle then (st, some .unauthorized)
    else if st.paused then (st, some .paused)
    else
      match vlookup st.vaults vault with
      | some v =>
        if v.connected then
          ({ st with
              vaults := vset st.vaults vault
                { v with
                  totalValue := totalValue,
                  inOutDelta := inOutDelta, reportTimestamp := now },
              processed := id :: st.processed }, none)
        else (st, some .unknownVault)
      | none => (st, some .unknownVault)
  | .mintShares id vault amount recipient =>
    if st.processed.contains id then (st, some .replay)
    else if sender ≠ st.admin then (st, some .unauthorized)
    else if st.paused then (st, some .paused)
    else
      match vlookup st.vaults vault with
      | some v =>
        if ¬ v.connected then (st, some .unknownVault)
        else if v.reportTimestamp = 0 ∨ v.reportTimestamp + FRESHNESS < now
        then (st, some .oracleStale)
        else if v.shareLimit < v.liabilityShares + amount ∨
            v.totalValue * 10000 <
              ((v.liabilityShares + amount) * v.reserveRatioBP : Int) then
          (st, some .maxLiability)
        else
          ({ st with
              vaults := vset st.vaults vault
                { v with
                  liabilityShares := v.liabilityShares + amount,
                  accumulatedFee :=
                    v.accumulatedFee + amount * v.infraFeeBP / 10000 },
              totalSharesMinted := st.totalSharesMinted + amount,
              processed := id :: st.processed }, none)
      | none => (st, some .unknownVault)
  | .burnShares id vault amount =>
    if st.processed.contains id then (st, some .replay)
    else if sender ≠ st.admin then (st, some .unauthorized)
    else
      match vlookup st.vaults vault with
      | some v =>
        if ¬ v.connected then (st, some .unknownVault)
        else if v.liabilityShares < amount then
          (st, some .insufficientShares)
        else
          ({ st with
              vaults := vset st.vaults vault
                { v with liabilityShares := v.liabilityShares - amount },
              totalSharesMinted := st.totalSharesMinted - amount,
              processed := id :: st.processed }, none)
      | none => (st, some .unknownVault)
  | .pause =>
    if sender ≠ st.admin then (st, some .unauthorized)
    else ({ st with paused := true }, none)
  | .resume =>
    if sender ≠ st.admin then (st, some .unauthorized)
    else ({ st with paused := false }, none)

/-- Run a list of (sender, now, message) triples through the registry. -/
def VaultHub.run (st : VaultHub) : List (Nat × Nat × HubMsg) → VaultHub
  | [] => st
  | (sender, now, m) :: rest => ((st.step sender now m).1).run rest

/-- `getAccumulatedFees` query. -/
def VaultHub.getAccumulatedFees (st : VaultHub) (vault : Nat) : Nat :=
  match vlookup st.vaults vault with
  | some v => v.accumulatedFee
  | none => 0

/-- `getHasBadDebt` query: reported collateral below issued liability. -/
def VaultHub.getHasBadDebt (st : VaultHub) (vault : Nat) : Bool :=
  match vlookup st.vaults vault with
  | some v => v.totalValue < (v.liabilityShares : Int)
  | none => false

/-- Registry-global accounting invariant relating the mint counter to the
per-vault liabilities (claim C10). -/
def VaultHub.liabilityInv (st : VaultHub) : Prop :=
  st.totalSharesMinted = sumLiab st.vaults

/-! ## Concrete fixtures from the test suites -/

/-- The `economics.test.ts` `beforeEach` fixture: admin 10, oracle 20;
vault 1 connected with `shareLimit=1000, reserveRatioBP=5000,
infraFeeBP=100, liquidityFeeBP=50` and reported at `totalValue=500`
(plain units rather than nano-TON; the checks are scale-invariant). -/
def hubA : VaultHub :=
  (VaultHub.init 10 20).run
    [(10, 0, .connectVault 1 1 1000 5000 100 50),
     (20, 100, .applyVaultReport 2 1 500 500)]

/-- Scenario B fixture: a second vault connected but never reported
(`reportTimestamp = 0`). -/
def hubB : VaultHub :=
  hubA.run [(10, 100, .connectVault 6 2 1000 5000 100 50)]

/-- Reconnect-after-disconnect trace: connect, report, mint 100,
disconnect with the liability outstanding, reconnect. -/
def hubReconnect : VaultHub :=
  (VaultHub.init 10 20).run
    [(10, 0, .connectVault 1 1 1000 5000 100 50),
     (20, 100, .applyVaultReport 2 1 500 500),
     (10, 150, .mintShares 3 1 100 7),
     (10, 160, .disconnectVault 4 1),
     (10, 170, .connectVault 5 1 1000 5000 100 50)]

/-- The record of vault 1 in `hubA`. -/
def vA : VaultRecord :=
  { connected := true, shareLimit := 1000, reserveRatioBP := 5000,
    infraFeeBP := 100, liquidityFeeBP := 50, totalValue := 500,
    inOutDelta := 500, liabilityShares := 0, accumulatedFee := 0,
    reportTimestamp := 100 }

/-- The record of the never-reported vault 2 in `hubB`. -/
def vB : VaultRecord :=
  { vA with totalValue := 0, inOutDelta := 0, reportTimestamp := 0 }

/-- Ledger with one holder (address 1) owning 100 shares, minted by the
hub (address 0). -/
def stW : StTON := (StTON.init 0).run [(0, .mint 10 1 100)]

/-- Scenario E fixture: holder 1 with 100 shares approves spender 2 for
50; spender moves 30 to recipient 3. -/
def stE : StTON :=
  (StTON.init 0).run
    [(0, .mint 70 1 100), (1, .approve 71 2 50),
     (2, .transferFrom 72 1 3 30)]

/-- The `TransferFrom fails without sufficient allowance` fixture: holder 1
has 100 shares and no approval was ever given. -/
def stNoAllow : StTON := (StTON.init 0).run [(0, .mint 73 1 100)]

/-- A reachable ledger state with 1 share and pooled value 100 — a high
pooled-value-per-share ratio. -/
def stRatio : StTON :=
  (StTON.init 0).run [(0, .mint 50 1 1), (0, .rebase 51 100)]

/-!
## Theorems

Helper lemmas about the association maps and the step functions, then one
theorem per claim (with its witness or counterexample).
-/

theorem sumVals_aset {α : Type} [DecidableEq α]
    (m : List (α × Nat)) (k : α) (v : Nat) :
    sumVals (aset m k v) + alookup m k = sumVals m + v := by
  induction m with
  | nil => simp [aset, alookup, sumVals]
  | cons p rest ih =>
    by_cases h : p.1 = k
    · simp [aset, alookup, sumVals, h]
      omega
    · simp only [aset, alookup, sumVals, h, if_false, List.map_cons,
        List.sum_cons]
      simp only [sumVals] at ih
      omega

theorem alookup_le_sumVals {α : Type} [DecidableEq α]
    (m : List (α × Nat)) (k : α) : alookup m k ≤ sumVals m := by
  induction m with
  | nil => simp [alookup]
  | cons p rest ih =>
    by_cases h : p.1 = k
    · simp [alookup, sumVals, h]
    · simp only [alookup, sumVals, h, if_false, List.map_cons, List.sum_cons]
      simp only [sumVals] at ih
      omega

theorem vlookup_vset_self (m : List (Nat × VaultRecord)) (k : Nat)
    (r : VaultRecord) : vlookup (vset m k r) k = some r := by
  induction m with
  | nil => simp [vset, vlookup]
  | cons p rest ih =>
    by_cases h : p.1 = k
    · simp [vset, vlookup, h]
    · simp [vset, vlookup, h, ih]

theorem sumLiab_vset (m : List (Nat × VaultRecord)) (k : Nat)
    (r : VaultRecord) :
    sumLiab (vset m k r) +
      (match vlookup m k with
        | some v => v.liabilityShares
        | none => 0) = sumLiab m + r.liabilityShares := by
  induction m with
  | nil => simp [vset, vlookup, sumLiab]
  | cons p rest ih =>
    by_cases h : p.1 = k
    · simp [vset, vlookup, sumLiab, h]
      omega
    · simp only [vset, vlookup, sumLiab, h, if_false, List.map_cons,
        List.sum_cons]
      simp only [sumLiab] at ih
      omega

example :
    ((StTON.init 0).run
      [(0, .mint 10 1 100), (0, .mint 11 2 100),
       (0, .rebase 12 200), (0, .rebase 13 220)]).getBalanceOf 1 = 110 := by
  decide

example : stE.getSharesOf 1 = 70 ∧ stE.getAllowance 1 2 = 20 := by decide

example : hubA.getAccumulatedFees 1 = 0 ∧ hubA.totalSharesMinted = 0 := by
  decide

theorem stton_step_replay (st : StTON) (sender : Nat) (m : StMsg)
    (h : st.processed.contains m.msgId = true) :
    st.step sender m = (st, some .replay) := by
  cases m <;> simp_all [StTON.step, StMsg.msgId]

theorem stton_step_err (st : StTON) (sender : Nat) (m : StMsg)
    (st' : StTON) (e : StErr) (h : st.step sender m = (st', some e)) :
    st' = st := by
  cases m <;> simp only [StTON.step, StMsg.msgId] at h <;>
    (repeat' split at h) <;> simp_all

theorem stton_step_ok_records (st : StTON) (sender : Nat) (m : StMsg)
    (st' : StTON) (h : st.step sender m = (st', none)) :
    st'.processed.contains m.msgId = true := by
  cases m <;> simp only [StTON.step, StMsg.msgId] at h ⊢ <;>
    (repeat' split at h) <;> (try simp_all) <;>
    (rw [← h]; simp [List.contains_cons])

theorem hub_step_replay (st : VaultHub) (sender now : Nat) (m : HubMsg)
    (i : Nat) (hm : m.msgId = some i)
    (h : st.processed.contains i = true) :
    st.step sender now m = (st, some .replay) := by
  cases m <;> simp_all [VaultHub.step, HubMsg.msgId]

theorem hub_step_err (st : VaultHub) (sender now : Nat) (m : HubMsg)
    (st' : VaultHub) (e : HubErr)
    (h : st.step sender now m = (st', some e)) : st' = st := by
  cases m <;> simp only [VaultHub.step, HubMsg.msgId] at h <;>
    (repeat' split at h) <;> simp_all

theorem hub_step_ok_records (st : VaultHub) (sender now : Nat)
    (m : HubMsg) (i : Nat) (hm : m.msgId = some i) (st' : VaultHub)
    (h : st.step sender now m = (st', none)) :
    st'.processed.contains i = true := by
  cases m <;> simp only [HubMsg.msgId] at hm <;>
    simp only [VaultHub.step] at h <;>
    (repeat' split at h) <;> (try simp_all) <;>
    (rw [← h]; simp [List.contains_cons, hm])

theorem StTON.step_conserves (st : StTON) (sender : Nat) (m : StMsg)
    (h : sumVals st.shares = st.totalShares) :
    sumVals ((st.step sender m).1).shares =
      ((st.step sender m).1).totalShares := by
  cases m with
  | mint id recipient amt =>
    simp only [StTON.step, StMsg.msgId]
    split
    · simpa using h
    · split
      · simpa using h
      · dsimp only
        have e := sumVals_aset st.shares recipient
          (alookup st.shares recipient + amt)
        omega
  | burn id account amt =>
    simp only [StTON.step, StMsg.msgId]
    split
    · simpa using h
    · split
      · simpa using h
      · split
        · simpa using h
        · rename_i hge
          dsimp only
          have e := sumVals_aset st.shares account
            (alookup st.shares account - amt)
          omega
  | rebase id newTotal =>
    simp only [StTON.step, StMsg.msgId]
    split
    · simpa using h
    · split
      · simpa using h
      · simpa using h
  | transferShares id toAddr amt =>
    simp only [StTON.step, StMsg.msgId]
    split
    · simpa using h
    · split
      · simpa using h
      · rename_i hge
        dsimp only
        have e1 := sumVals_aset st.shares sender
          (alookup st.shares sender - amt)
        have e2 := sumVals_aset
          (aset st.shares sender (alookup st.shares sender - amt)) toAddr
          (alookup (aset st.shares sender (alookup st.shares sender - amt))
            toAddr + amt)
        omega
  | approve id spender amt =>
    simp only [StTON.step, StMsg.msgId]
    split
    · simpa using h
    · simpa using h
  | transferFrom id owner toAddr amt =>
    simp only [StTON.step, StMsg.msgId]
    split
    · simpa using h
    · split
      · simpa using h
      · split
        · simpa using h
        · rename_i hge
          dsimp only
          have e1 := sumVals_aset st.shares owner
            (alookup st.shares owner - amt)
          have e2 := sumVals_aset
            (aset st.shares owner (alookup st.shares owner - amt)) toAddr
            (alookup (aset st.shares owner (alookup st.shares owner - amt))
              toAddr + amt)
          omega

theorem StTON.run_conserves (msgs : List (Nat × StMsg)) (st : StTON)
    (h : sumVals st.shares = st.totalShares) :
    sumVals ((st.run msgs).shares) = (st.run msgs).totalShares := by
  induction msgs generalizing st with
  | nil => simpa [StTON.run] using h
  | cons p rest ih =>
    simp only [StTON.run]
    exact ih _ (StTON.step_conserves st p.1 p.2 h)

theorem StTON.rebase_ok (st : StTON) (sender id newTotal : Nat)
    (h : (st.step sender (.rebase id newTotal)).2 = none) :
    (st.step sender (.rebase id newTotal)).1 =
      { st with
        totalPooledTON := newTotal,
        processed := id :: st.processed } := by
  simp only [StTON.step, StMsg.msgId] at h ⊢
  split at h <;> rename_i h1
  · simp at h
  · split at h <;> rename_i h2
    · simp at h
    · have h1m : id ∉ st.processed := by simpa using h1
      simp [h1m, h2]

/-- C3: share conservation — after every sequence of Mint, Burn, Rebase,
TransferShares, Approve and TransferFrom operations on the freshly
deployed ledger, the sum of shares over all holder accounts equals
`totalShares`. -/
theorem c3_share_conservation (hub : Nat) (msgs : List (Nat × StMsg)) :
    sumVals (((StTON.init hub).run msgs).shares) =
      ((StTON.init hub).run msgs).totalShares :=
  StTON.run_conserves msgs (StTON.init hub) rfl

/-- C2: after a successful `Rebase(newTotal)` on a ledger with
`totalShares > 0`, every holder's balance is
`floor(s_i * newTotal / totalShares)` and no holder's share count changes
(for increases and decreases of the pooled value alike). -/
theorem c2_proportional_rebase (st : StTON) (sender id newTotal : Nat)
    (h : (st.step sender (.rebase id newTotal)).2 = none)
    (ht : 0 < st.totalShares) (i : Nat) :
    ((st.step sender (.rebase id newTotal)).1).getBalanceOf i =
      alookup st.shares i * newTotal / st.totalShares ∧
    alookup ((st.step sender (.rebase id newTotal)).1).shares i =
      alookup st.shares i := by
  rw [StTON.rebase_ok st sender id newTotal h]
  exact ⟨by simp [StTON.getBalanceOf, Nat.pos_iff_ne_zero.mp ht], rfl⟩

/-- Witness for C2: the one-holder ledger `stW` (100 shares) rebased to
150 — the hypotheses hold and the conclusion follows by the theorem. -/
theorem c2_proportional_rebase_witness :
    (stW.step 0 (.rebase 11 150)).2 = none ∧ 0 < stW.totalShares ∧
    ((stW.step 0 (.rebase 11 150)).1.getBalanceOf 1 =
        alookup stW.shares 1 * 150 / stW.totalShares ∧
      alookup ((stW.step 0 (.rebase 11 150)).1).shares 1 =
        alookup stW.shares 1) :=
  ⟨by decide, by decide,
    c2_proportional_rebase stW 0 11 150 (by decide) (by decide) 1⟩

/-- C4: replay protection, for both actors.  Re-sending any mutating
message whose identifier is already in the actor's processed set changes
no state and yields the Replay error; any failing step returns the state
unchanged (so a non-replay failure does not record the identifier, and
the same id can succeed on a later retry); a successful step records its
identifier. -/
theorem c4_replay_protection :
    (∀ (st : VaultHub) (sender now : Nat) (m : HubMsg) (i : Nat),
      m.msgId = some i → st.processed.contains i = true →
        st.step sender now m = (st, some .replay)) ∧
    (∀ (st : VaultHub) (sender now : Nat) (m : HubMsg) (st' : VaultHub)
        (e : HubErr), st.step sender now m = (st', some e) → st' = st) ∧
    (∀ (st : VaultHub) (sender now : Nat) (m : HubMsg) (i : Nat)
        (st' : VaultHub), m.msgId = some i →
        st.step sender now m = (st', none) →
        st'.processed.contains i = true) ∧
    (∀ (st : StTON) (sender : Nat) (m : StMsg),
      st.processed.contains m.msgId = true →
        st.step sender m = (st, some .replay)) ∧
    (∀ (st : StTON) (sender : Nat) (m : StMsg) (st' : StTON) (e : StErr),
      st.step sender m = (st', some e) → st' = st) ∧
    (∀ (st : StTON) (sender : Nat) (m : StMsg) (st' : StTON),
      st.step sender m = (st', none) →
        st'.processed.contains m.msgId = true) :=
  ⟨fun st s n m i hm h => hub_step_replay st s n m i hm h,
   fun st s n m st' e h => hub_step_err st s n m st' e h,
   fun st s n m i st' hm h => hub_step_ok_records st s n m i hm st' h,
   fun st s m h => stton_step_replay st s m h,
   fun st s m st' e h => stton_step_err st s m st' e h,
   fun st s m st' h => stton_step_ok_records st s m st' h⟩

/-- Witness for C4 at a concrete state: `hubA` has consumed query id 2
(the oracle report), so re-sending a report with id 2 yields Replay and
the state unchanged. -/
theorem c4_replay_protection_witness :
    hubA.processed.contains 2 = true ∧
    hubA.step 20 300 (.applyVaultReport 2 1 600 600) =
      (hubA, some .replay) :=
  ⟨by decide,
    c4_replay_protection.1 hubA 20 300 (.applyVaultReport 2 1 600 600) 2
      rfl (by decide)⟩

theorem VaultHub.mint_ok (st : VaultHub)
    (sender now id vault amount recipient : Nat) (v : VaultRecord)
    (st' : VaultHub) (hv : vlookup st.vaults vault = some v)
    (h : st.step sender now (.mintShares id vault amount recipient) =
      (st', none)) :
    st' =
      { st with
        vaults := vset st.vaults vault
          { v with
            liabilityShares := v.liabilityShares + amount,
            accumulatedFee :=
              v.accumulatedFee + amount * v.infraFeeBP / 10000 },
        totalSharesMinted := st.totalSharesMinted + amount,
        processed := id :: st.processed } ∧
    v.liabilityShares + amount ≤ v.shareLimit ∧
    (((v.liabilityShares + amount) * v.reserveRatioBP : Int)) ≤
      v.totalValue * 10000 := by
  simp only [VaultHub.step, hv] at h
  split at h <;> rename_i h1
  · simp at h
  · split at h <;> rename_i h2
    · simp at h
    · split at h <;> rename_i h3
      · simp at h
      · split at h <;> rename_i h4
        · simp at h
        · split at h <;> rename_i h5
          · simp at h
          · split at h <;> rename_i h6
            · simp at h
            · push_neg at h6
              simp only [Prod.mk.injEq] at h
              exact ⟨h.1.symm, h6.1, h6.2⟩

/-- C1: on a connected, freshly-reported, unpaused vault with a fresh
query id and the admin sender, a successful `MintShares` leaves the vault
record satisfying both solvency bounds; if `liabilityShares + amount`
would violate either the share limit or the reserve-ratio bound, the step
fails with MaxLiability (exit code 211) and changes no state; and on the
Scenario-A fixture (shareLimit 1000, reserveRatioBP 5000, totalValue 500)
minting exactly 1000 succeeds while minting 1001 fails with
MaxLiability. -/
theorem c1_mint_solvency (st : VaultHub)
    (sender now id vault amount recipient : Nat) (v : VaultRecord)
    (hid : id ∉ st.processed) (hs : sender = st.admin)
    (hp : st.paused = false)
    (hv : vlookup st.vaults vault = some v) (hc : v.connected = true)
    (ht0 : v.reportTimestamp ≠ 0)
    (hfr : now ≤ v.reportTimestamp + FRESHNESS) :
    (∀ st', st.step sender now (.mintShares id vault amount recipient) =
        (st', none) →
      ∃ v', vlookup st'.vaults vault = some v' ∧
        v'.liabilityShares ≤ v'.shareLimit ∧
        ((v'.liabilityShares * v'.reserveRatioBP : Int)) ≤
          v'.totalValue * 10000) ∧
    ((v.shareLimit < v.liabilityShares + amount ∨
        v.totalValue * 10000 <
          ((v.liabilityShares + amount) * v.reserveRatioBP : Int)) →
      st.step sender now (.mintShares id vault amount recipient) =
        (st, some .maxLiability) ∧
      HubErr.exitCode .maxLiability = some 211) ∧
    (hubA.step 10 150 (.mintShares 3 1 1000 7)).2 = none ∧
    hubA.step 10 150 (.mintShares 3 1 1001 7) = (hubA, some .maxLiability) := by
  refine ⟨?_, ?_, by decide, by decide⟩
  · intro st' h
    obtain ⟨hst, hb1, hb2⟩ :=
      VaultHub.mint_ok st sender now id vault amount recipient v st' hv h
    refine ⟨_, by rw [hst]; exact vlookup_vset_self st.vaults vault _, ?_, ?_⟩
    · simpa using hb1
    · simpa using hb2
  · intro hviol
    refine ⟨?_, rfl⟩
    simp only [VaultHub.step, hv]
    rw [if_neg (by simpa using hid)]
    rw [if_neg (by simp [hs])]
    rw [if_neg (by simp [hp])]
    rw [if_neg (by simp [hc])]
    rw [if_neg (by push_neg; exact ⟨ht0, by omega⟩)]
    rw [if_pos hviol]

/-- Witness for C1 at the Scenario-A fixture: all hypotheses hold for
`hubA` and minting 1001 hits the MaxLiability branch. -/
theorem c1_mint_solvency_witness :
    hubA.step 10 150 (.mintShares 3 1 1001 7) = (hubA, some .maxLiability) ∧
    HubErr.exitCode .maxLiability = some 211 :=
  (c1_mint_solvency hubA 10 150 3 1 1001 7 vA (by decide) (by decide)
      (by decide) (by decide) (by decide) (by decide) (by decide)).2.1
    (by decide)

/-- C8: on a connected vault that was never reported
(`reportTimestamp = 0`) or whose last report is older than the 2-day
freshness window, MintShares (admin-sent, fresh id, registry unpaused)
fails with OracleStale (exit code 210) and changes no state, whatever the
amount and recipient. -/
theorem c8_oracle_stale (st : VaultHub)
    (sender now id vault amount recipient : Nat) (v : VaultRecord)
    (hid : id ∉ st.processed) (hs : sender = st.admin)
    (hp : st.paused = false)
    (hv : vlookup st.vaults vault = some v) (hc : v.connected = true)
    (hstale : v.reportTimestamp = 0 ∨ v.reportTimestamp + FRESHNESS < now) :
    st.step sender now (.mintShares id vault amount recipient) =
      (st, some .oracleStale) ∧
    HubErr.exitCode .oracleStale = some 210 := by
  refine ⟨?_, rfl⟩
  simp only [VaultHub.step, hv]
  rw [if_neg (by simpa using hid)]
  rw [if_neg (by simp [hs])]
  rw [if_neg (by simp [hp])]
  rw [if_neg (by simp [hc])]
  rw [if_pos hstale]

/-- Witness for C8: on `hubB`, vault 2 is connected but never reported;
an admin mint with a fresh id fails with OracleStale. -/
theorem c8_oracle_stale_witness :
    hubB.step 10 200 (.mintShares 7 2 10 7) = (hubB, some .oracleStale) ∧
    HubErr.exitCode .oracleStale = some 210 :=
  c8_oracle_stale hubB 10 200 7 2 10 7 vB (by decide) (by decide)
    (by decide) (by decide) (by decide) (Or.inl (by decide))

/-- C9: every successful `MintShares(vault, amount)` increases that
vault's `accumulatedFee` by exactly `floor(amount*infraFeeBP/10000)`, and
fees add up across successive mints: on the Scenario-A fixture
(infraFeeBP 100) minting 100 and then 200 accumulates fee 3. -/
theorem c9_fee_accrual (st : VaultHub)
    (sender now id vault amount recipient : Nat) (v : VaultRecord)
    (st' : VaultHub) (hv : vlookup st.vaults vault = some v)
    (h : st.step sender now (.mintShares id vault amount recipient) =
      (st', none)) :
    (∃ v', vlookup st'.vaults vault = some v' ∧
      v'.accumulatedFee = v.accumulatedFee + amount * v.infraFeeBP / 10000) ∧
    (hubA.run [(10, 150, .mintShares 3 1 100 7),
      (10, 151, .mintShares 4 1 200 7)]).getAccumulatedFees 1 = 3 := by
  obtain ⟨hst, -, -⟩ :=
    VaultHub.mint_ok st sender now id vault amount recipient v st' hv h
  exact ⟨⟨_, by rw [hst]; exact vlookup_vset_self st.vaults vault _, rfl⟩,
    by decide⟩

/-- Witness for C9: a successful mint of 100 on `hubA` (fee 1). -/
theorem c9_fee_accrual_witness :
    (∃ v', vlookup ((hubA.step 10 150 (.mintShares 3 1 100 7)).1).vaults 1 =
        some v' ∧
      v'.accumulatedFee = vA.accumulatedFee + 100 * vA.infraFeeBP / 10000) ∧
    (hubA.run [(10, 150, .mintShares 3 1 100 7),
      (10, 151, .mintShares 4 1 200 7)]).getAccumulatedFees 1 = 3 :=
  c9_fee_accrual hubA 10 150 3 1 100 7 vA
    ((hubA.step 10 150 (.mintShares 3 1 100 7)).1) (by decide) (by decide)

/-- C10 fails as stated: `ConnectVault` reactivates a retained record
with zero liability (§4.1), so connect → report → mint 100 → disconnect
→ reconnect leaves `totalSharesMinted = 100` but `Σ liabilityShares = 0`. -/
theorem c10_counterexample :
    hubReconnect.totalSharesMinted = 100 ∧
    sumLiab hubReconnect.vaults = 0 ∧
    ¬ hubReconnect.liabilityInv :=
  ⟨by decide, by decide, by
    show ¬(hubReconnect.totalSharesMinted = sumLiab hubReconnect.vaults)
    decide⟩

/-- C10 (amended): every registry operation preserves
`totalSharesMinted = Σ liabilityShares over all vault records`, provided
`ConnectVault` never reactivates a retained record carrying nonzero
liability (i.e. no reconnect after disconnecting with outstanding
liability). -/
theorem c10_liability_accounting (st : VaultHub) (sender now : Nat)
    (m : HubMsg) (hinv : st.liabilityInv)
    (hconn : ∀ id vault sl rr inf liq r,
      m = .connectVault id vault sl rr inf liq →
      vlookup st.vaults vault = some r → r.liabilityShares = 0) :
    ((st.step sender now m).1).liabilityInv := by
  cases m with
  | connectVault id vault sl rr inf liq =>
    simp only [VaultHub.step, VaultHub.liabilityInv] at hinv ⊢
    split
    · exact hinv
    · split
      · exact hinv
      · split
        · exact hinv
        · split
          · rename_i v hv
            split
            · exact hinv
            · dsimp only
              have hv0 := hconn id vault sl rr inf liq v rfl hv
              have e := sumLiab_vset st.vaults vault
                { connected := true, shareLimit := sl, reserveRatioBP := rr,
                  infraFeeBP := inf, liquidityFeeBP := liq, totalValue := 0,
                  inOutDelta := 0, liabilityShares := 0, accumulatedFee := 0,
                  reportTimestamp := 0 }
              simp only [hv] at e
              omega
          · rename_i hv
            dsimp only
            have e := sumLiab_vset st.vaults vault
              { connected := true, shareLimit := sl, reserveRatioBP := rr,
                infraFeeBP := inf, liquidityFeeBP := liq, totalValue := 0,
                inOutDelta := 0, liabilityShares := 0, accumulatedFee := 0,
                reportTimestamp := 0 }
            simp only [hv] at e
            omega
  | disconnectVault id vault =>
    simp only [VaultHub.step, VaultHub.liabilityInv] at hinv ⊢
    split
    · exact hinv
    · split
      · exact hinv
      · split
        · rename_i v hv
          split
          · dsimp only
            have e := sumLiab_vset st.vaults vault { v with connected := false }
            simp only [hv] at e
            omega
          · exact hinv
        · exact hinv
  | updateConnection id vault sl rr inf =>
    simp only [VaultHub.step, VaultHub.liabilityInv] at hinv ⊢
    split
    · exact hinv
    · split
      · exact hinv
      · split
        · rename_i v hv
          split
          · dsimp only
            have e := sumLiab_vset st.vaults vault
              { v with
                shareLimit := sl, reserveRatioBP := rr,
                infraFeeBP := inf }
            simp only [hv] at e
            omega
          · exact hinv
        · exact hinv
  | applyVaultReport id vault totalValue inOutDelta =>
    simp only [VaultHub.step, VaultHub.liabilityInv] at hinv ⊢
    split
    · exact hinv
    · split
      · exact hinv
      · split
        · exact hinv
        · split
          · rename_i v hv
            split
            · dsimp only
              have e := sumLiab_vset st.vaults vault
                { v with
                  totalValue := totalValue,
                  inOutDelta := inOutDelta, reportTimestamp := now }
              simp only [hv] at e
              omega
            · exact hinv
          · exact hinv
  | mintShares id vault amount recipient =>
    simp only [VaultHub.step, VaultHub.liabilityInv] at hinv ⊢
    split
    · exact hinv
    · split
      · exact hinv
      · split
        · exact hinv
        · split
          · rename_i v hv
            split
            · exact hinv
            · split
              · exact hinv
              · split
                · exact hinv
                · dsimp only
                  have e := sumLiab_vset st.vaults vault
                    { v with
                      liabilityShares := v.liabilityShares + amount,
                      accumulatedFee :=
                        v.accumulatedFee + amount * v.infraFeeBP / 10000 }
                  simp only [hv] at e
                  omega
          · exact hinv
  | burnShares id vault amount =>
    simp only [VaultHub.step, VaultHub.liabilityInv] at hinv ⊢
    split
    · exact hinv
    · split
      · exact hinv
      · split
        · rename_i v hv
          split
          · exact hinv
          · split
            · exact hinv
            · rename_i hge
              dsimp only
              have e := sumLiab_vset st.vaults vault
                { v with liabilityShares := v.liabilityShares - amount }
              simp only [hv] at e
              omega
        · exact hinv
  | pause =>
    simp only [VaultHub.step, VaultHub.liabilityInv] at hinv ⊢
    split
    · exact hinv
    · exact hinv
  | resume =>
    simp only [VaultHub.step, VaultHub.liabilityInv] at hinv ⊢
    split
    · exact hinv
    · exact hinv

/-- Witness for C10 (amended): a successful mint on the fixture `hubA`
preserves the accounting identity. -/
theorem c10_liability_accounting_witness :
    ((hubA.step 10 150 (.mintShares 3 1 100 7)).1).liabilityInv :=
  c10_liability_accounting hubA 10 150 (.mintShares 3 1 100 7)
    (by decide : hubA.totalSharesMinted = sumLiab hubA.vaults)
    (fun _ _ _ _ _ _ _ h _ => by simp at h)

/-- C5 fails as stated: on the reachable ledger `stRatio`
(`totalShares = 1 > 0`, `totalPooledTON = 100 > 0`), the round trip of
`x = 50` returns 0, a loss of 50 units — far more than one. -/
theorem c5_roundtrip_counterexample :
    0 < stRatio.totalShares ∧ 0 < stRatio.totalPooledTON ∧
    stRatio.getPooledTonByShares (stRatio.getSharesByPooledTon 50) = 0 ∧
    ¬ (50 - stRatio.getPooledTonByShares
        (stRatio.getSharesByPooledTon 50) ≤ 1) := by
  refine ⟨by decide, by decide, by decide, by decide⟩

/-- C5 (amended): the round trip never overshoots
(`pooledValueByShares (sharesByPooledValue x) ≤ x`) and the loss is less
than one share's pooled value plus one unit:
`totalShares * x < totalShares * roundtrip + totalPooledTON + totalShares`.
In particular the loss is at most one unit whenever
`totalPooledTON ≤ totalShares`. -/
theorem c5_roundtrip_bound (st : StTON) (x : Nat)
    (hS : 0 < st.totalShares) (hP : 0 < st.totalPooledTON) :
    st.getPooledTonByShares (st.getSharesByPooledTon x) ≤ x ∧
    st.totalShares * x <
      st.totalShares * st.getPooledTonByShares (st.getSharesByPooledTon x) +
        st.totalPooledTON + st.totalShares := by
  have hSne : st.totalShares ≠ 0 := Nat.pos_iff_ne_zero.mp hS
  have hPne : st.totalPooledTON ≠ 0 := Nat.pos_iff_ne_zero.mp hP
  simp only [StTON.getSharesByPooledTon, StTON.getPooledTonByShares,
    if_neg hSne, if_neg hPne]
  set S := st.totalShares with hSd
  set P := st.totalPooledTON with hPd
  set q := x * S / P with hqd
  set r := q * P / S with hrd
  have h1 : P * q + (x * S) % P = x * S := Nat.div_add_mod (x * S) P
  have h2 : S * r + (q * P) % S = q * P := Nat.div_add_mod (q * P) S
  have hm1 : (x * S) % P < P := Nat.mod_lt _ hP
  have hm2 : (q * P) % S < S := Nat.mod_lt _ hS
  have hq : q * P ≤ x * S := by
    calc q * P = P * q := Nat.mul_comm q P
      _ ≤ P * q + (x * S) % P := Nat.le_add_right _ _
      _ = x * S := h1
  constructor
  · have h3 : r ≤ x * S / S := Nat.div_le_div_right hq
    rwa [Nat.mul_div_cancel x hS] at h3
  · have hx : x * S < q * P + P := by
      calc x * S = P * q + (x * S) % P := h1.symm
        _ < P * q + P := Nat.add_lt_add_left hm1 _
        _ = q * P + P := by rw [Nat.mul_comm]
    have hq2 : q * P < S * r + S := by
      calc q * P = S * r + (q * P) % S := h2.symm
        _ < S * r + S := Nat.add_lt_add_left hm2 _
    have hgoal : S * x < S * r + P + S := by
      rw [Nat.mul_comm S x]
      generalize x * S = A at hx
      generalize q * P = B at hx hq2
      generalize S * r = C at hq2 ⊢
      omega
    exact hgoal

/-- Witness for C5 (amended) on the concrete ledger `stRatio` at
`x = 50`. -/
theorem c5_roundtrip_bound_witness :
    stRatio.getPooledTonByShares (stRatio.getSharesByPooledTon 50) ≤ 50 ∧
    stRatio.totalShares * 50 <
      stRatio.totalShares *
          stRatio.getPooledTonByShares (stRatio.getSharesByPooledTon 50) +
        stRatio.totalPooledTON + stRatio.totalShares :=
  c5_roundtrip_bound stRatio 50 (by decide) (by decide)

/-- C6 fails as stated: at the share ledger, the unauthorized-Mint
failure and the insufficient-allowance TransferFrom failure surface the
same exit code (700), not different ones. -/
theorem c6_error_code_counterexample :
    ((StTON.init 0).step 9 (.mint 11 1 100)).2 = some .unauthorized ∧
    (stNoAllow.step 2 (.transferFrom 74 1 3 10)).2 =
      some .insufficientAllowance ∧
    StErr.exitCode .unauthorized = StErr.exitCode .insufficientAllowance := by
  refine ⟨by decide, by decide, rfl⟩

/-- C6 (amended): ledger failures carry stable exit codes and
insufficient balance (702) is distinct from the authorization code (700),
but an unauthorized Mint and a TransferFrom with insufficient allowance
surface the same code 700. -/
theorem c6_error_codes :
    ((StTON.init 0).step 9 (.mint 11 1 100)).2 = some .unauthorized ∧
    (stNoAllow.step 2 (.transferFrom 74 1 3 10)).2 =
      some .insufficientAllowance ∧
    (stNoAllow.step 1 (.transferShares 75 2 200)).2 =
      some .insufficientBalance ∧
    StErr.exitCode .unauthorized = some 700 ∧
    StErr.exitCode .insufficientAllowance = some 700 ∧
    StErr.exitCode .insufficientBalance = some 702 := by
  refine ⟨by decide, by decide, by decide, rfl, rfl, rfl⟩

/-- C7: Scenario E — holder 1 with 100 shares approves spender 2 for 50;
the spender's TransferFrom of 30 to holder 3 succeeds leaving shares
70/30 and allowance 20; a further TransferFrom of 30 fails with
InsufficientAllowance and changes no state. -/
theorem c7_transfer_from_scenario :
    stE.getSharesOf 1 = 70 ∧
    stE.getSharesOf 3 = 30 ∧
    stE.getAllowance 1 2 = 20 ∧
    stE.step 2 (.transferFrom 73 1 3 30) =
      (stE, some .insufficientAllowance) := by
  refine ⟨by decide, by decide, by decide, by decide⟩

end LidoTVM
